import Mathlib

/-!
Verification of the Cribo bundler specification against the repository's
Python sources (test fixtures and ecosystem harness).  The Rust core of the
bundler is not part of the available sources, so components of the core
(registry, resolver, semantic analyzer, emitter) are modelled from the
specification text and exercised on the concrete fixture data embedded from
the repository's files.
-/

namespace Cribo

/- ### C7: export-set computation of the semantic analyzer -/

/-- A Python name whose first character is an underscore (this covers both
`_private` names and dunders such as `__version__`). -/
def startsWithUnderscore (n : String) : Bool := n.data.head? == some '_'

/-- Modelled from the spec: the semantic analyzer's export computation (§4.4
"Exports"); the analyzer itself is outside the available sources.  If
`__all__` is a list/tuple literal of string constants it is the export set
verbatim; otherwise the exports are all top-level names not starting with an
underscore. -/
def moduleExports (allList : Option (List String)) (topLevelNames : List String) :
    List String :=
  match allList with
  | some names => names
  | none => topLevelNames.filter (fun n => !startsWithUnderscore n)

/-- Top-level names of the first synthetic module in src/test_dunder_export.py
(`__version__`, `_private_var`, `public_var`; no `__all__`). -/
def test_module_names : List String := ["__version__", "_private_var", "public_var"]

/-- Top-level names of the second synthetic module in
src/test_dunder_export.py (it also assigns `__all__`). -/
def test_module2_names : List String :=
  ["__version__", "_private_var", "public_var", "__all__"]

/-- The `__all__` literal of the second synthetic module in
src/test_dunder_export.py. -/
def test_module2_all : List String := ["public_var", "__version__"]

/- ### C9: command line built by run_cribo -/

/-- The argument list built by `run_cribo` in src/ecosystem/scenarios/utils.py:
base command with `--entry`/`--output`, then `--emit-requirements` when
requested, `--no-tree-shake` when tree-shaking is NOT requested, and `-v` when
verbose. -/
def run_cribo_cmd (cribo_cmd entry_point output_path : String)
    (emit_requirements tree_shake verbose : Bool) : List String :=
  ([cribo_cmd, "--entry", entry_point, "--output", output_path]
      ++ (if emit_requirements then ["--emit-requirements"] else [])
      ++ (if !tree_shake then ["--no-tree-shake"] else []))
    ++ (if verbose then ["-v"] else [])

/- ### C10: names importable from the ecosystem utils module -/

/-- The top-level names bound in src/ecosystem/scenarios/utils.py: the module
imports at lines 3-8 and the seven function definitions.  No name
`parse_requirements_file` is bound anywhere in the file. -/
def utils_module_names : List String :=
  ["importlib", "sys", "subprocess", "Path", "List", "Optional", "Any", "Set",
   "Dict", "contextmanager", "ensure_test_directories", "run_cribo",
   "run_bundled_test", "format_bundle_size", "load_bundled_module",
   "_parse_pyproject_toml", "get_package_requirements"]

/-- The names requested by the `from .utils import ...` statement at line 17 of
src/ecosystem/scenarios/test_httpx.py. -/
def test_httpx_requested : List String :=
  ["run_cribo", "format_bundle_size", "load_bundled_module",
   "ensure_test_directories", "get_package_requirements",
   "parse_requirements_file"]

/-- The names requested by the `from .utils import ...` statement at line 18 of
src/ecosystem/scenarios/test_pyyaml.py. -/
def test_pyyaml_requested : List String :=
  ["run_cribo", "format_bundle_size", "load_bundled_module",
   "ensure_test_directories", "get_package_requirements",
   "parse_requirements_file"]

/-- Python's `from M import a, b, ...` binds the requested names left to right
and raises ImportError at the first name the module does not provide.  This
returns that first missing name, if any. -/
def fromImportFirstMissing (moduleAttrs requested : List String) : Option String :=
  requested.find? (fun n => !moduleAttrs.contains n)

/- ### C2: resolver and byte-identical output -/

/-- Join dotted-path components with path separators (spec §4.2: "I with dots
→ separators"). -/
def joinPath : List String → String
  | [] => ""
  | [c] => c
  | c :: cs => c ++ "/" ++ joinPath cs

/-- Modelled from the spec: resolution of a candidate identity inside a single
source root (§4.2); the resolver is outside the available sources.  A match is
either the package file `<root>/<I>/__init__.py` or the submodule file
`<root>/<I>.py`; a tie within one root goes to the package.  `fs` is the set
of files that exist. -/
def resolveInRoot (fs : List String) (root : String) (ident : List String) :
    Option String :=
  let pkg := root ++ "/" ++ joinPath ident ++ "/__init__.py"
  let sub := root ++ "/" ++ joinPath ident ++ ".py"
  if fs.contains pkg then some pkg
  else if fs.contains sub then some sub
  else none

/-- Modelled from the spec: search the configured source roots in order; the
first root with a match wins (§4.2). -/
def resolveImport (fs : List String) (roots : List String) (ident : List String) :
    Option String :=
  match roots with
  | [] => none
  | r :: rs =>
    match resolveInRoot fs r ident with
    | some p => some p
    | none => resolveImport fs rs ident

/-- Render one import's resolution into the emission. -/
def renderResolution (entry : List String × Option String) : String :=
  match entry with
  | (i, some p) => joinPath i ++ " -> " ++ p
  | (i, none) => joinPath i ++ " -> external"

/-- Join emitted lines. -/
def joinLines : List String → String
  | [] => ""
  | [l] => l
  | l :: ls => l ++ "\n" ++ joinLines ls

/-- Modelled from the spec: the bundle text as a pure function of the inputs
(§5 "Determinism"); the source roots influence the output only through how
each import resolves (§4.2, §4.6). -/
def bundleText (fs roots : List String) (imports : List (List String)) : String :=
  joinLines (imports.map (fun i => renderResolution (i, resolveImport fs roots i)))

/- ### C4: stdlib imports preserved verbatim, never inlined or wrapped -/

/-- Import classification (spec §4.1). -/
inductive ImportKind where
  | stdlib
  | firstparty
  | thirdparty
  | native
deriving DecidableEq

/-- Modelled from the spec: the import classifier (§4.1); it is outside the
available sources.  Rules applied in order to the top-level name of an
absolute import: first-party if it matches a configured source-root package
(user intent wins over stdlib), stdlib if in the bundled stdlib snapshot,
native extension if the resolved file is a C-extension artifact, otherwise
third-party. -/
def classifyTop (rootPackages stdlibNames nativeNames : List String)
    (top : String) : ImportKind :=
  if rootPackages.contains top then .firstparty
  else if stdlibNames.contains top then .stdlib
  else if nativeNames.contains top then .native
  else .thirdparty

/-- An import statement as recorded per module: dotted target, its top-level
component, the `as` alias if any, and the `from`-imported name/alias pairs
(empty for a plain `import`). -/
structure PyImport where
  target : String
  top : String
  asName : Option String
  fromNames : List (String × Option String)
deriving DecidableEq

/-- A module record as far as C4 needs it: identity, recorded imports, and the
side-effect flag of the semantic analyzer. -/
structure PyModule where
  name : String
  imports : List PyImport
  sideEffectful : Bool
deriving DecidableEq

/-- Modelled from the spec: the bundle header (§4.6 step 1) — the preserved
stdlib imports of all modules (union across modules, de-duplicated), followed
by the preserved third-party and native-extension imports, each kept verbatim
as a top-level import. -/
def bundleHeader (cls : String → ImportKind) (mods : List PyModule) :
    List PyImport :=
  (mods.flatMap (fun m =>
    m.imports.filter (fun i => decide (cls i.top = ImportKind.stdlib)))).dedup
    ++ (mods.flatMap (fun m =>
      m.imports.filter (fun i =>
        decide (cls i.top = ImportKind.thirdparty)
          || decide (cls i.top = ImportKind.native)))).dedup

/-- Modelled from the spec: the dependency graph holds only first-party
modules (§4.3); stdlib, third-party and native targets never enter it. -/
def graphModules (cls : String → ImportKind) (mods : List PyModule) :
    List PyModule :=
  mods.filter (fun m => decide (cls m.name = ImportKind.firstparty))

/-- Modelled from the spec: wrapped modules are the graph modules that are
side-effectful or cyclic (§4.3, §9). -/
def wrappedNames (cls : String → ImportKind) (mods : List PyModule)
    (cyclic : List String) : List String :=
  ((graphModules cls mods).filter
    (fun m => m.sideEffectful || cyclic.contains m.name)).map (fun m => m.name)

/-- Modelled from the spec: inlined modules are the remaining graph modules
(§3 invariant (a), §4.6 step 4). -/
def inlinedNames (cls : String → ImportKind) (mods : List PyModule)
    (cyclic : List String) : List String :=
  ((graphModules cls mods).filter
    (fun m => !(m.sideEffectful || cyclic.contains m.name))).map (fun m => m.name)

/-- The classifier instantiated for the stdlib fixtures: the fixture root
modules are first-party, the stdlib snapshot contains the modules they use. -/
def fixtureClassify (top : String) : ImportKind :=
  classifyTop ["file_utils", "wrapper_module", "main"]
    ["os", "json", "pathlib", "datetime", "logging", "sys"] [] top

/-- The aliased statement `import os as py_os` at line 3 of
src/crates/cribo/tests/fixtures/stdlib_hoisting_aliases/file_utils.py. -/
def osAliasImport : PyImport := ⟨"os", "os", some "py_os", []⟩

/-- The statement `import logging` at line 3 of
src/crates/cribo/tests/fixtures/wrapper_stdlib_imports/wrapper_module.py. -/
def loggingImport : PyImport := ⟨"logging", "logging", none, []⟩

/-- The module-level imports of
src/crates/cribo/tests/fixtures/stdlib_hoisting_aliases/file_utils.py. -/
def file_utils_module : PyModule :=
  ⟨"file_utils",
    [osAliasImport, ⟨"json", "json", some "js", []⟩,
     ⟨"pathlib", "pathlib", none, [("Path", some "PyPath")]⟩,
     ⟨"datetime", "datetime", none, [("datetime", some "DT")]⟩],
    false⟩

/-- src/crates/cribo/tests/fixtures/wrapper_stdlib_imports/wrapper_module.py:
imports `logging` and has a top-level `print` side effect, so it is wrapped. -/
def wrapper_module_record : PyModule := ⟨"wrapper_module", [loggingImport], true⟩

/-- The module set of the two stdlib fixtures as bundled together for the
theorem's concrete part. -/
def stdlibFixtureModules : List PyModule :=
  [file_utils_module, wrapper_module_record,
   ⟨"main", [⟨"wrapper_module", "wrapper_module", none,
      [("get_logger", none)]⟩], true⟩]

/-- A native-extension import statement (`import _cffi_backend as backend`),
for the native half of the preservation claim; no fixture under src/ carries
one, so a synthetic instance exercises the spec rule. -/
def cffiImport : PyImport := ⟨"_cffi_backend", "_cffi_backend", some "backend", []⟩

/-- An entry module that uses the native extension alongside a stdlib import. -/
def nativeDemoMain : PyModule :=
  ⟨"main", [cffiImport, ⟨"sys", "sys", none, []⟩], false⟩

/-- The module set of the native-extension demonstration. -/
def nativeDemoModules : List PyModule := [nativeDemoMain]

/-- The classifier for the native-extension demonstration: `main` is the
first-party entry, `sys` is stdlib, and `_cffi_backend` resolves to a
C-extension artifact (§4.1 rule iii). -/
def nativeDemoClassify (top : String) : ImportKind :=
  classifyTop ["main"] ["sys"] ["_cffi_backend"] top

/- ### C3: tree-shaking on the simple_treeshaking_inlining fixture -/

/-- The names referenced by a symbol, per the reference graph `g`. -/
def refsOf (g : List (String × List String)) (n : String) : List String :=
  match g.lookup n with
  | some l => l
  | none => []

/-- One round of reachability propagation: add everything the current set
references. -/
def reachStep (g : List (String × List String)) (cur : List String) :
    List String :=
  (cur ++ cur.flatMap (refsOf g)).dedup

/-- Iterated propagation. -/
def reachN (g : List (String × List String)) : Nat → List String → List String
  | 0, cur => cur
  | k + 1, cur => reachN g k (reachStep g cur)

/-- Modelled from the spec: tree-shaking reachability (§4.4) — starting from
the entry module's used names, include transitive references through def/class
bodies; names never reached are dropped (the module has no `__all__`, no
wildcard importers, and is not side-effectful, so no exception applies).  The
analyzer itself is outside the available sources.  Iterating once per symbol
reaches the closure. -/
def reachableNames (g : List (String × List String)) (roots : List String) :
    List String :=
  reachN g g.length roots

/-- Reference graph of
src/crates/cribo/tests/fixtures/simple_treeshaking_inlining/speaking.py, one
entry per top-level symbol, listing the names its def/class body references:
`Pet` extends `ABC`; `Sex` extends `Enum`; `scream` calls `say`;
`PersonTitle` and `Phrase` extend `Protocol`; `Person` references `Sex` (in
`__init__` and `title`), `PersonTitle` (return annotation of `title`) and
calls `create_ms` and `create_mr` inside `title`.  `Phrase` is referenced by
no symbol. -/
def speakingRefs : List (String × List String) :=
  [("Pet", ["ABC"]),
   ("Sex", ["Enum"]),
   ("ALICE_NAME", []),
   ("BOB_NAME", []),
   ("say", []),
   ("scream", ["say"]),
   ("create_ms", []),
   ("create_mr", []),
   ("PersonTitle", ["Protocol"]),
   ("Phrase", ["Protocol"]),
   ("Person", ["Sex", "PersonTitle", "create_ms", "create_mr"]),
   ("ABC", []),
   ("Enum", []),
   ("Protocol", [])]

/-- The entry module's used names: main.py imports and uses `ALICE_NAME`,
`create_ms`, `say`, `Person`, `Sex` (lines 1-10 of
src/crates/cribo/tests/fixtures/simple_treeshaking_inlining/main.py). -/
def treeshakeEntryRoots : List String :=
  ["ALICE_NAME", "create_ms", "say", "Person", "Sex"]

/- ### C8: requirements file emission -/

/-- The import kinds that count toward the requirements file (spec §6):
third-party packages, with native-extension packages included. -/
def isExternalDep : ImportKind → Bool
  | .thirdparty => true
  | .native => true
  | _ => false

/-- Lexicographic less-or-equal on character lists, by code point. -/
def strLeChars : List Char → List Char → Bool
  | [], _ => true
  | _ :: _, [] => false
  | a :: as, b :: bs =>
    if a.toNat < b.toNat then true
    else if b.toNat < a.toNat then false
    else strLeChars as bs

/-- Lexicographic less-or-equal on strings, by code point. -/
def strLe (a b : String) : Bool := strLeChars a.data b.data

instance : IsTotal String (fun a b => strLe a b = true) := by
  constructor
  intro a b
  unfold strLe
  generalize a.data = as
  generalize b.data = bs
  induction as generalizing bs with
  | nil => exact Or.inl rfl
  | cons x xs ih =>
    cases bs with
    | nil => exact Or.inr rfl
    | cons y ys =>
      by_cases h1 : x.toNat < y.toNat
      · exact Or.inl (by simp [strLeChars, h1])
      · by_cases h2 : y.toNat < x.toNat
        · exact Or.inr (by simp [strLeChars, h2])
        · rcases ih ys with h | h
          · exact Or.inl (by simp [strLeChars, h1, h2, h])
          · exact Or.inr (by simp [strLeChars, h1, h2, h])

instance : IsTrans String (fun a b => strLe a b = true) := by
  constructor
  intro a b c hab hbc
  unfold strLe at hab hbc ⊢
  suffices h : ∀ (as bs cs : List Char), strLeChars as bs = true →
      strLeChars bs cs = true → strLeChars as cs = true from
    h a.data b.data c.data hab hbc
  intro as
  induction as with
  | nil => intro bs cs _ _; rfl
  | cons x xs ih =>
    intro bs cs hab hbc
    cases bs with
    | nil => simp [strLeChars] at hab
    | cons y ys =>
      cases cs with
      | nil => simp [strLeChars] at hbc
      | cons z zs =>
        by_cases hxy : x.toNat < y.toNat
        · by_cases hyz : y.toNat < z.toNat
          · have : x.toNat < z.toNat := by omega
            simp [strLeChars, this]
          · by_cases hzy : z.toNat < y.toNat
            · simp [strLeChars, hyz, hzy] at hbc
            · have : x.toNat < z.toNat := by omega
              simp [strLeChars, this]
        · by_cases hyx : y.toNat < x.toNat
          · simp [strLeChars, hxy, hyx] at hab
          · by_cases hyz : y.toNat < z.toNat
            · have : x.toNat < z.toNat := by omega
              simp [strLeChars, this]
            · by_cases hzy : z.toNat < y.toNat
              · simp [strLeChars, hyz, hzy] at hbc
              · have hxz : ¬x.toNat < z.toNat := by omega
                have hzx : ¬z.toNat < x.toNat := by omega
                simp only [strLeChars, if_neg hxy, if_neg hyx] at hab
                simp only [strLeChars, if_neg hyz, if_neg hzy] at hbc
                simp only [strLeChars, if_neg hxz, if_neg hzx]
                exact ih ys zs hab hbc

/-- Modelled from the spec: the requirements projection (§6 "Requirements
file"); it is outside the available sources.  One package per line for every
distinct third-party (or native) top-level package referenced, sorted;
standard-library and first-party imports excluded. -/
def requirementsPackages (cls : String → ImportKind) (tops : List String) :
    List String :=
  List.insertionSort (fun a b => strLe a b = true)
    ((tops.filter (fun t => isExternalDep (cls t))).dedup)

/-- Modelled from the spec: when no third-party imports are found, no
requirements file is produced (§6). -/
def requirementsFile (cls : String → ImportKind) (tops : List String) :
    Option (List String) :=
  let pkgs := requirementsPackages cls tops
  if pkgs.isEmpty then none else some pkgs

/-- The classifier for the bundled idna package of
src/ecosystem/scenarios/test_idna.py: idna itself is first-party, and every
module it references is in the stdlib snapshot. -/
def idnaClassify (top : String) : ImportKind :=
  classifyTop ["idna"] ["re", "unicodedata", "sys", "bisect"] [] top

/-- The top-level names referenced by the bundled idna package: its own
submodules plus pure stdlib modules, no third-party dependency. -/
def idnaImportTops : List String := ["idna", "re", "unicodedata", "sys", "bisect"]

/-- A classifier for the mixed demonstration input: `sys` is stdlib,
everything else unknown (hence third-party). -/
def demoClassify (top : String) : ImportKind := classifyTop [] ["sys"] [] top

/-- A referenced-import list with a duplicate third-party package and a stdlib
module, to exercise de-duplication and sorting. -/
def demoTops : List String := ["yaml", "sys", "requests", "yaml"]

/- ### C6: locals/globals shadowing guard -/

/-- Values occurring in the locals_globals_shadowing fixture: strings,
booleans, dicts, zero-argument functions returning a fixed value, and the
opaque module-namespace object that a rewritten bare `locals()`/`globals()`
call yields in the bundle. -/
inductive PyVal where
  | str (s : String)
  | bool (b : Bool)
  | dict (entries : List (String × PyVal))
  | func (ret : PyVal)
  | moduleNamespace

/-- The module-level statement forms used by
src/crates/cribo/tests/fixtures/locals_globals_shadowing/main.py:
`def name(): return v`, `target = callee()`, and `target = source`. -/
inductive LGStmt where
  | defFun (name : String) (ret : PyVal)
  | assignCall (target : String) (callee : String)
  | assignName (target : String) (source : String)

/-- Statements after the bundler's rewrite pass: a bare `locals()`/`globals()`
call that was rewritten becomes an assignment of the module-namespace
equivalent; everything else is left as written. -/
inductive LGStmtR where
  | assignModuleNs (target : String)
  | defFun (name : String) (ret : PyVal)
  | assignCall (target : String) (callee : String)
  | assignName (target : String) (source : String)

/-- Modelled from the spec: the special-builtins guard (§4.4) — bare
`locals()`/`globals()` calls are rewritten to the module-namespace equivalent,
but an assignment shadowing `locals` or `globals` at module scope disables the
rewrite for that builtin from the point of shadowing onward.  The rewriter is
outside the available sources. -/
def rewriteLG : List LGStmt → Bool → Bool → List LGStmtR
  | [], _, _ => []
  | LGStmt.assignCall t c :: rest, sl, sg =>
    if c = "locals" ∧ sl = false then
      LGStmtR.assignModuleNs t :: rewriteLG rest sl sg
    else if c = "globals" ∧ sg = false then
      LGStmtR.assignModuleNs t :: rewriteLG rest sl sg
    else
      LGStmtR.assignCall t c :: rewriteLG rest sl sg
  | LGStmt.assignName t s :: rest, sl, sg =>
    LGStmtR.assignName t s ::
      rewriteLG rest (sl || t == "locals") (sg || t == "globals")
  | LGStmt.defFun n r :: rest, sl, sg =>
    LGStmtR.defFun n r :: rewriteLG rest sl sg

/-- Environment update: replace an existing binding in place, else append. -/
def envSet (env : List (String × PyVal)) (k : String) (v : PyVal) :
    List (String × PyVal) :=
  match env with
  | [] => [(k, v)]
  | (k', v') :: rest =>
    if k' = k then (k, v) :: rest else (k', v') :: envSet rest k v

/-- Environment lookup. -/
def envLookup (env : List (String × PyVal)) (k : String) : Option PyVal :=
  match env with
  | [] => none
  | (k', v') :: rest => if k' = k then some v' else envLookup rest k

/-- Execution of the rewritten module body: a rewritten call binds the module
namespace object; a call left as written looks the callee up and binds the
function's return value (error if the name is unbound or not callable); a name
assignment copies the bound value. -/
def evalLG : List LGStmtR → List (String × PyVal) → Option (List (String × PyVal))
  | [], env => some env
  | LGStmtR.assignModuleNs t :: rest, env =>
    evalLG rest (envSet env t PyVal.moduleNamespace)
  | LGStmtR.defFun n r :: rest, env =>
    evalLG rest (envSet env n (PyVal.func r))
  | LGStmtR.assignCall t c :: rest, env =>
    match envLookup env c with
    | some (PyVal.func ret) => evalLG rest (envSet env t ret)
    | _ => none
  | LGStmtR.assignName t s :: rest, env =>
    match envLookup env s with
    | some v => evalLG rest (envSet env t v)
    | none => none

/-- The module body of
src/crates/cribo/tests/fixtures/locals_globals_shadowing/main.py, in source
order: the two function definitions, the two pre-shadow builtin calls, then
`locals = some_custom_function`, `result_locals = locals()`,
`globals = another_custom_function`, `result_globals = globals()`. -/
def lgFixtureBody : List LGStmt :=
  [LGStmt.defFun "some_custom_function"
     (PyVal.dict [("custom", PyVal.str "result")]),
   LGStmt.defFun "another_custom_function"
     (PyVal.dict [("another", PyVal.str "custom"), ("result", PyVal.bool true)]),
   LGStmt.assignCall "builtin_locals_result" "locals",
   LGStmt.assignCall "builtin_globals_result" "globals",
   LGStmt.assignName "locals" "some_custom_function",
   LGStmt.assignCall "result_locals" "locals",
   LGStmt.assignName "globals" "another_custom_function",
   LGStmt.assignCall "result_globals" "globals"]

/- ### C5: elimination of self-assignments -/

/-- Values of the Python subset exercised by the no_ops_multimodule_self_refs
fixtures: integers, strings, booleans, None, references to heap objects, and
pairs (standing in for the fixture's tuples and lists). -/
inductive SVal where
  | int (n : Int)
  | str (s : String)
  | bool (b : Bool)
  | pynone
  | ref (r : Nat)
  | vpair (v₁ v₂ : SVal)

/-- Expressions: literals, variable reads, attribute reads from a variable's
object, and pair construction. -/
inductive SExpr where
  | lit (v : SVal)
  | var (x : String)
  | attr (x : String) (a : String)
  | pair (e₁ e₂ : SExpr)

/-- Statements: skip, sequencing, name assignment, attribute assignment
(`x.a = e`, as in the fixture's `self.level = self.level`), conditionals, and
printing (the observable output). -/
inductive PStmt where
  | skip
  | seq (s₁ s₂ : PStmt)
  | assign (x : String) (e : SExpr)
  | attrAssign (x : String) (a : String) (e : SExpr)
  | ifElse (c : SExpr) (s₁ s₂ : PStmt)
  | printE (e : SExpr)

/-- Association-list lookup with string keys. -/
def alistGet {α : Type} (l : List (String × α)) (k : String) : Option α :=
  match l with
  | [] => none
  | (k', v) :: rest => if k' = k then some v else alistGet rest k

/-- Association-list update, replacing an existing binding in place. -/
def alistSet {α : Type} (l : List (String × α)) (k : String) (v : α) :
    List (String × α) :=
  match l with
  | [] => [(k, v)]
  | (k', v') :: rest =>
    if k' = k then (k, v) :: rest else (k', v') :: alistSet rest k v

/-- Heap lookup by object reference. -/
def heapGet (h : List (Nat × List (String × SVal))) (r : Nat) :
    Option (List (String × SVal)) :=
  match h with
  | [] => none
  | (r', a) :: rest => if r' = r then some a else heapGet rest r

/-- Heap update by object reference, replacing in place. -/
def heapSet (h : List (Nat × List (String × SVal))) (r : Nat)
    (a : List (String × SVal)) : List (Nat × List (String × SVal)) :=
  match h with
  | [] => [(r, a)]
  | (r', a') :: rest =>
    if r' = r then (r, a) :: rest else (r', a') :: heapSet rest r a

/-- Program state: variable environment, object heap, and the output stream
(the observable behaviour). -/
structure PState where
  env : List (String × SVal)
  heap : List (Nat × List (String × SVal))
  output : List SVal

/-- Expression evaluation; `none` is a NameError/AttributeError. -/
def evalE (st : PState) : SExpr → Option SVal
  | SExpr.lit v => some v
  | SExpr.var x => alistGet st.env x
  | SExpr.attr x a =>
    match alistGet st.env x with
    | some (SVal.ref r) =>
      match heapGet st.heap r with
      | some attrs => alistGet attrs a
      | none => none
    | _ => none
  | SExpr.pair e₁ e₂ =>
    match evalE st e₁, evalE st e₂ with
    | some v₁, some v₂ => some (SVal.vpair v₁ v₂)
    | _, _ => none

/-- Big-step execution; `none` is an uncaught runtime error. -/
def execS : PStmt → PState → Option PState
  | PStmt.skip, st => some st
  | PStmt.seq s₁ s₂, st =>
    match execS s₁ st with
    | some st' => execS s₂ st'
    | none => none
  | PStmt.assign x e, st =>
    match evalE st e with
    | some v => some { st with env := alistSet st.env x v }
    | none => none
  | PStmt.attrAssign x a e, st =>
    match alistGet st.env x, evalE st e with
    | some (SVal.ref r), some v =>
      match heapGet st.heap r with
      | some attrs => some { st with heap := heapSet st.heap r (alistSet attrs a v) }
      | none => none
    | _, _ => none
  | PStmt.ifElse c s₁ s₂, st =>
    match evalE st c with
    | some (SVal.bool true) => execS s₁ st
    | some (SVal.bool false) => execS s₂ st
    | _ => none
  | PStmt.printE e, st =>
    match evalE st e with
    | some v => some { st with output := st.output ++ [v] }
    | none => none

/-- Modelled from the spec: self-reference elimination (§4.4) — assignments of
the form `x = x` are dropped; attribute self-assignments (`self.x = self.x`)
and everything else are retained.  The transformation itself is outside the
available sources. -/
def dropSelfAssign : PStmt → PStmt
  | PStmt.seq s₁ s₂ => PStmt.seq (dropSelfAssign s₁) (dropSelfAssign s₂)
  | PStmt.assign x (SExpr.var y) =>
    if y = x then PStmt.skip else PStmt.assign x (SExpr.var y)
  | PStmt.ifElse c s₁ s₂ => PStmt.ifElse c (dropSelfAssign s₁) (dropSelfAssign s₂)
  | s => s

/-- Static check that every `x = x` occurs with `x` already definitely bound
(the fixtures' documented idiom): threads the set of definitely-bound names
through the program; conservatively unchanged across a conditional. -/
def chkSelf : PStmt → List String → Option (List String)
  | PStmt.skip, bs => some bs
  | PStmt.seq s₁ s₂, bs =>
    match chkSelf s₁ bs with
    | some bs₁ => chkSelf s₂ bs₁
    | none => none
  | PStmt.assign x (SExpr.var y), bs =>
    if y = x then (if x ∈ bs then some bs else none) else some (x :: bs)
  | PStmt.assign x _, bs => some (x :: bs)
  | PStmt.attrAssign _ _ _, bs => some bs
  | PStmt.ifElse _ s₁ s₂, bs =>
    match chkSelf s₁ bs, chkSelf s₂ bs with
    | some _, some _ => some bs
    | _, _ => none
  | PStmt.printE _, bs => some bs

/-- The module-level statements of
src/crates/cribo/tests/fixtures/no_ops_multimodule_self_refs/utils/constants.py
(the basic constants, their self-references, `CONFIG_LIST`, `LIMITS` and their
self-references, with pairs standing in for the list and tuple literals). -/
def constantsFragment : PStmt :=
  PStmt.seq (PStmt.assign "MAX_VALUE" (SExpr.lit (SVal.int 1000)))
    (PStmt.seq (PStmt.assign "MIN_VALUE" (SExpr.lit (SVal.int 0)))
      (PStmt.seq (PStmt.assign "DEFAULT_NAME" (SExpr.lit (SVal.str "default")))
        (PStmt.seq (PStmt.assign "MAX_VALUE" (SExpr.var "MAX_VALUE"))
          (PStmt.seq (PStmt.assign "MIN_VALUE" (SExpr.var "MIN_VALUE"))
            (PStmt.seq (PStmt.assign "DEFAULT_NAME" (SExpr.var "DEFAULT_NAME"))
              (PStmt.seq
                (PStmt.assign "CONFIG_LIST"
                  (SExpr.pair (SExpr.var "MAX_VALUE")
                    (SExpr.pair (SExpr.var "MIN_VALUE") (SExpr.var "DEFAULT_NAME"))))
                (PStmt.seq (PStmt.assign "CONFIG_LIST" (SExpr.var "CONFIG_LIST"))
                  (PStmt.seq
                    (PStmt.assign "LIMITS"
                      (SExpr.pair (SExpr.var "MIN_VALUE") (SExpr.var "MAX_VALUE")))
                    (PStmt.assign "LIMITS" (SExpr.var "LIMITS"))))))))))

/-- The self-reference part of `Logger.__init__` in
src/crates/cribo/tests/fixtures/no_ops_multimodule_self_refs/utils/helpers.py:
`name = name` (parameter self-assignment, dropped) followed by
`self.level = self.level` (attribute self-assignment, retained). -/
def loggerInitFragment : PStmt :=
  PStmt.seq (PStmt.assign "name" (SExpr.var "name"))
    (PStmt.attrAssign "self" "level" (SExpr.attr "self" "level"))

/-- The initial state of `Logger.__init__`: parameters `self` (an object whose
`level` attribute is already set) and `name` are bound. -/
def loggerInitState : PState :=
  ⟨[("self", SVal.ref 0), ("name", SVal.str "main")],
   [(0, [("level", SVal.str "INFO")])], []⟩

/- ### C1: module registry and import-once semantics -/

/-- Initialization state of a wrapped module's registry entry: untouched,
currently executing its body (Python's partial-initialization window), or
fully initialized. -/
inductive InitState where
  | notStarted
  | inProgress
  | finished
deriving DecidableEq

/-- Modelled from the spec: the synthesized module registry (§3 "Module
registry", §4.6 step 2, §9); the emitted registry runtime is outside the
available sources.  Per module identity: its initialization state, its
namespace object (identified by an allocation number) once installed, and — as
the observation the import-once property is about — how many times its
top-level body has been executed.  `fresh` is the next namespace allocation
number. -/
structure Registry where
  status : String → InitState
  ns : String → Option Nat
  execCount : String → Nat
  fresh : Nat

/-- The registry before the bundled program runs. -/
def emptyRegistry : Registry :=
  ⟨fun _ => InitState.notStarted, fun _ => none, fun _ => 0, 0⟩

/-- Begin initializing module `m` (spec §9): install a fresh namespace object,
mark the entry in-progress, and record one execution of the body. -/
def startEntry (r : Registry) (m : String) : Registry :=
  { status := fun x => if x = m then InitState.inProgress else r.status x,
    ns := fun x => if x = m then some r.fresh else r.ns x,
    execCount := fun x => if x = m then r.execCount x + 1 else r.execCount x,
    fresh := r.fresh + 1 }

/-- Mark module `m` fully initialized. -/
def finishEntry (r : Registry) (m : String) : Registry :=
  { r with status := fun x => if x = m then InitState.finished else r.status x }

/-- Modelled from the spec: the registry helper that, given an identity, calls
the module's initializer at most once and returns its namespace (§4.6 step 2).
Per §9, the namespace is installed and the entry marked in-progress BEFORE the
body runs, so a re-entrant import during the body returns the partially
initialized namespace.  The body's own imports (`deps m`) are triggered while
the body runs.  `fuel` bounds the nesting depth to make the recursion
structural; with fuel exhausted the call conservatively returns the current
entry without running anything. -/
def initModule (deps : String → List String) :
    Nat → Registry → String → Registry × Option Nat
  | 0, r, m => (r, r.ns m)
  | fuel + 1, r, m =>
    match r.status m with
    | InitState.finished => (r, r.ns m)
    | InitState.inProgress => (r, r.ns m)
    | InitState.notStarted =>
      (finishEntry
        ((deps m).foldl (fun acc d => (initModule deps fuel acc d).1)
          (startEntry r m)) m,
       some r.fresh)

/-- Run a sequence of external imports against the registry. -/
def runTrace (deps : String → List String) (fuel : Nat) (r : Registry)
    (trace : List String) : Registry :=
  trace.foldl (fun acc m => (initModule deps fuel acc m).1) r

/-- The namespace returned by each import of a trace, in order. -/
def traceResults (deps : String → List String) (fuel : Nat) :
    Registry → List String → List (String × Option Nat)
  | _, [] => []
  | r, m :: ms =>
    (m, (initModule deps fuel r m).2) ::
      traceResults deps fuel (initModule deps fuel r m).1 ms

/-- The top-level import structure of the
pyfail_function_scoped_wrapper_init fixture: pkg/__init__.py does
`from .submodule import SOME_CONSTANT` and pkg/submodule.py does
`from . import package_function`, a cycle forcing both into wrapper mode; the
function-scoped `from pkg.submodule import some_function` in main.py imports
pkg.submodule on each call of test_function. -/
def pyfailDeps (m : String) : List String :=
  if m = "pkg.submodule" then ["pkg"]
  else if m = "pkg" then ["pkg.submodule"]
  else []

/-- The registry invariant behind import-once: a module not yet started has
never run its body, and no body ever runs twice. -/
def RegInv (r : Registry) : Prop :=
  ∀ m, (r.status m = InitState.notStarted → r.execCount m = 0) ∧ r.execCount m ≤ 1

/-- The registry invariant behind namespace stability: a module not yet
started has no namespace installed. -/
def NsInv (r : Registry) : Prop :=
  ∀ m, r.status m = InitState.notStarted → r.ns m = none

/- ### Theorems -/

/-- Projection of `startEntry`: status. -/
theorem startEntry_status (r : Registry) (m x : String) :
    (startEntry r m).status x
      = if x = m then InitState.inProgress else r.status x := rfl

/-- Projection of `startEntry`: namespace. -/
theorem startEntry_ns (r : Registry) (m x : String) :
    (startEntry r m).ns x = if x = m then some r.fresh else r.ns x := rfl

/-- Projection of `startEntry`: execution count. -/
theorem startEntry_count (r : Registry) (m x : String) :
    (startEntry r m).execCount x
      = if x = m then r.execCount x + 1 else r.execCount x := rfl

/-- Projection of `finishEntry`: status. -/
theorem finishEntry_status (r : Registry) (m x : String) :
    (finishEntry r m).status x
      = if x = m then InitState.finished else r.status x := rfl

/-- Projection of `finishEntry`: namespace. -/
theorem finishEntry_ns (r : Registry) (m : String) : (finishEntry r m).ns = r.ns := rfl

/-- Projection of `finishEntry`: execution count. -/
theorem finishEntry_count (r : Registry) (m : String) :
    (finishEntry r m).execCount = r.execCount := rfl

/-- A registry property preserved by each step is preserved by a fold. -/
theorem foldl_pres_registry (P : Registry → Prop) (step : Registry → String → Registry)
    (h : ∀ a d, P a → P (step a d)) :
    ∀ (l : List String) (a : Registry), P a → P (l.foldl step a) := by
  intro l
  induction l with
  | nil => intro a ha; exact ha
  | cons d ds ih => intro a ha; exact ih (step a d) (h a d ha)

/-- Once a module is started, a fold of steps that each preserve startedness
and its namespace keeps both. -/
theorem foldl_stable_registry (step : Registry → String → Registry) (x : String)
    (h : ∀ a d, a.status x ≠ InitState.notStarted →
      (step a d).status x ≠ InitState.notStarted ∧ (step a d).ns x = a.ns x) :
    ∀ (l : List String) (a : Registry), a.status x ≠ InitState.notStarted →
      (l.foldl step a).status x ≠ InitState.notStarted ∧
      (l.foldl step a).ns x = a.ns x := by
  intro l
  induction l with
  | nil => intro a ha; exact ⟨ha, rfl⟩
  | cons d ds ih =>
    intro a ha
    obtain ⟨h1, h2⟩ := h a d ha
    obtain ⟨h3, h4⟩ := ih (step a d) h1
    exact ⟨h3, h4.trans h2⟩

/-- Initializing any module never un-starts another module and never changes
the namespace of a module that is already started. -/
theorem initModule_stable (deps : String → List String) :
    ∀ (fuel : Nat) (r : Registry) (m x : String),
      r.status x ≠ InitState.notStarted →
      (initModule deps fuel r m).1.status x ≠ InitState.notStarted ∧
      (initModule deps fuel r m).1.ns x = r.ns x := by
  intro fuel
  induction fuel with
  | zero => intro r m x hx; exact ⟨hx, rfl⟩
  | succ fuel ih =>
    intro r m x hx
    cases hs : r.status m with
    | finished => simp only [initModule, hs]; exact ⟨hx, trivial⟩
    | inProgress => simp only [initModule, hs]; exact ⟨hx, trivial⟩
    | notStarted =>
      have hxm : x ≠ m := fun h => hx (by rw [h, hs])
      have h1 : (startEntry r m).status x ≠ InitState.notStarted := by
        rw [startEntry_status, if_neg hxm]; exact hx
      have h2 := foldl_stable_registry _ x (fun a d hx' => ih a d x hx')
        (deps m) (startEntry r m) h1
      simp only [initModule, hs]
      constructor
      · rw [finishEntry_status, if_neg hxm]
        exact h2.1
      · rw [finishEntry_ns, h2.2, startEntry_ns, if_neg hxm]

/-- Initializing modules preserves the import-once invariant. -/
theorem initModule_inv (deps : String → List String) :
    ∀ (fuel : Nat) (r : Registry) (m : String),
      RegInv r → RegInv (initModule deps fuel r m).1 := by
  intro fuel
  induction fuel with
  | zero => intro r m h; exact h
  | succ fuel ih =>
    intro r m h
    cases hs : r.status m with
    | finished => simp only [initModule, hs]; exact h
    | inProgress => simp only [initModule, hs]; exact h
    | notStarted =>
      have hstart : RegInv (startEntry r m) := by
        intro x
        by_cases hxm : x = m
        · subst hxm
          constructor
          · intro hcontra
            rw [startEntry_status, if_pos rfl] at hcontra
            cases hcontra
          · rw [startEntry_count, if_pos rfl, (h x).1 hs]
        · constructor
          · intro h2
            rw [startEntry_status, if_neg hxm] at h2
            rw [startEntry_count, if_neg hxm]
            exact (h x).1 h2
          · rw [startEntry_count, if_neg hxm]
            exact (h x).2
      have h2 : RegInv ((deps m).foldl
          (fun acc d => (initModule deps fuel acc d).1) (startEntry r m)) :=
        foldl_pres_registry RegInv _ (fun a d ha => ih a d ha) (deps m) _ hstart
      simp only [initModule, hs]
      intro x
      constructor
      · intro h3
        rw [finishEntry_status] at h3
        by_cases hxm : x = m
        · rw [if_pos hxm] at h3; cases h3
        · rw [if_neg hxm] at h3
          rw [finishEntry_count]
          exact (h2 x).1 h3
      · rw [finishEntry_count]
        exact (h2 x).2

/-- Initializing modules preserves the no-namespace-before-start invariant. -/
theorem initModule_nsInv (deps : String → List String) :
    ∀ (fuel : Nat) (r : Registry) (m : String),
      NsInv r → NsInv (initModule deps fuel r m).1 := by
  intro fuel
  induction fuel with
  | zero => intro r m h; exact h
  | succ fuel ih =>
    intro r m h
    cases hs : r.status m with
    | finished => simp only [initModule, hs]; exact h
    | inProgress => simp only [initModule, hs]; exact h
    | notStarted =>
      have hstart : NsInv (startEntry r m) := by
        intro x h2
        rw [startEntry_status] at h2
        by_cases hxm : x = m
        · rw [if_pos hxm] at h2; cases h2
        · rw [if_neg hxm] at h2
          rw [startEntry_ns, if_neg hxm]
          exact h x h2
      have h2 : NsInv ((deps m).foldl
          (fun acc d => (initModule deps fuel acc d).1) (startEntry r m)) :=
        foldl_pres_registry NsInv _ (fun a d ha => ih a d ha) (deps m) _ hstart
      intro x h3
      simp only [initModule] at h3 ⊢
      rw [hs] at h3 ⊢
      rw [finishEntry_status] at h3
      by_cases hxm : x = m
      · rw [if_pos hxm] at h3; cases h3
      · rw [if_neg hxm] at h3
        rw [finishEntry_ns]
        exact h2 x h3

/-- The namespace an import returns is exactly the namespace installed in the
registry after the call. -/
theorem initModule_retNs (deps : String → List String) (fuel : Nat) (r : Registry)
    (m : String) :
    (initModule deps fuel r m).2 = (initModule deps fuel r m).1.ns m := by
  cases fuel with
  | zero => rfl
  | succ fuel =>
    cases hs : r.status m with
    | finished => simp [initModule, hs]
    | inProgress => simp [initModule, hs]
    | notStarted =>
      simp only [initModule, hs]
      have h1 : (startEntry r m).status m ≠ InitState.notStarted := by
        rw [startEntry_status, if_pos rfl]
        intro h
        cases h
      have h2 := foldl_stable_registry _ m
        (fun a d hx' => initModule_stable deps fuel a d m hx')
        (deps m) (startEntry r m) h1
      rw [finishEntry_ns, h2.2, startEntry_ns, if_pos rfl]

/-- An import that returns a namespace leaves the module started, with that
namespace recorded. -/
theorem initModule_someStatus (deps : String → List String) (fuel : Nat)
    (r : Registry) (m : String) (n : Nat) (hJ : NsInv r)
    (h : (initModule deps fuel r m).2 = some n) :
    (initModule deps fuel r m).1.status m ≠ InitState.notStarted ∧
    (initModule deps fuel r m).1.ns m = some n := by
  have hr := initModule_retNs deps fuel r m
  rw [h] at hr
  have hJ' : NsInv (initModule deps fuel r m).1 := initModule_nsInv deps fuel r m hJ
  constructor
  · intro hns
    rw [hJ' m hns] at hr
    cases hr
  · exact hr.symm

/-- Every successful import result in a trace agrees with the final registry's
namespace for that module. -/
theorem traceResults_final (deps : String → List String) (fuel : Nat) :
    ∀ (trace : List String) (r : Registry), NsInv r →
      ∀ (m : String) (n : Nat), (m, some n) ∈ traceResults deps fuel r trace →
        (runTrace deps fuel r trace).ns m = some n := by
  intro trace
  induction trace with
  | nil =>
    intro r _ m n h
    simp [traceResults] at h
  | cons t ts ih =>
    intro r hJ m n hmem
    simp only [traceResults] at hmem
    rcases List.mem_cons.mp hmem with heq | htail
    · injection heq with h1 h2
      subst h1
      have hpost := initModule_someStatus deps fuel r m n hJ h2.symm
      have hst := foldl_stable_registry _ m
        (fun a d hx' => initModule_stable deps fuel a d m hx')
        ts (initModule deps fuel r m).1 hpost.1
      exact hst.2.trans hpost.2
    · exact ih (initModule deps fuel r t).1 (initModule_nsInv deps fuel r t hJ)
        m n htail

/-- Importing an already-initialized module is a strict no-op. -/
theorem initModule_finished (deps : String → List String) (fuel : Nat)
    (r : Registry) (m : String) (h : r.status m = InitState.finished) :
    initModule deps fuel r m = (r, r.ns m) := by
  cases fuel with
  | zero => rfl
  | succ fuel => simp [initModule, h]

/-- Repeated imports of an already-initialized module leave the registry
untouched. -/
theorem runTrace_replicate_finished (deps : String → List String) (fuel : Nat)
    (m : String) :
    ∀ (k : Nat) (r : Registry), r.status m = InitState.finished →
      runTrace deps fuel r (List.replicate k m) = r := by
  intro k
  induction k with
  | zero => intro r _; rfl
  | succ k ih =>
    intro r h
    show runTrace deps fuel (initModule deps fuel r m).1 (List.replicate k m) = r
    rw [initModule_finished deps fuel r m h]
    exact ih r h

/-- Looking a key up after an in-place update: the updated key now maps to the
new value, every other key is unchanged. -/
theorem alistGet_set {α : Type} (l : List (String × α)) (k : String) (v : α)
    (n : String) :
    alistGet (alistSet l k v) n = if k = n then some v else alistGet l n := by
  induction l with
  | nil => simp [alistGet, alistSet]
  | cons p rest ih =>
    obtain ⟨k', v'⟩ := p
    by_cases hk : k' = k
    · subst hk
      by_cases hn : k' = n
      · subst hn; simp [alistSet, alistGet]
      · simp [alistSet, alistGet, hn]
    · by_cases hn : k' = n
      · subst hn
        have : ¬k = k' := fun h => hk h.symm
        simp [alistSet, alistGet, hk, this]
      · simp [alistSet, alistGet, hk, hn, ih]

/-- Writing a key's current value back leaves the association list unchanged
(the in-place update makes the source's `x = x` a strict no-op). -/
theorem alistSet_self {α : Type} (l : List (String × α)) (k : String) (v : α)
    (h : alistGet l k = some v) : alistSet l k v = l := by
  induction l with
  | nil => simp [alistGet] at h
  | cons p rest ih =>
    obtain ⟨k', v'⟩ := p
    by_cases hk : k' = k
    · subst hk
      simp [alistGet] at h
      simp [alistSet, h]
    · simp [alistGet, hk] at h
      simp [alistSet, hk, ih h]

/-- The definitely-bound set only grows along the static check. -/
theorem chkSelf_subset : ∀ (s : PStmt) (bs bs' : List String),
    chkSelf s bs = some bs' → ∀ n ∈ bs, n ∈ bs' := by
  intro s
  induction s with
  | skip =>
    intro bs bs' h n hn
    simp only [chkSelf] at h
    injection h with h2
    subst h2
    exact hn
  | seq s₁ s₂ ih₁ ih₂ =>
    intro bs bs' h n hn
    simp only [chkSelf] at h
    cases h₁ : chkSelf s₁ bs with
    | none => rw [h₁] at h; cases h
    | some bs₁ =>
      rw [h₁] at h
      exact ih₂ bs₁ bs' h n (ih₁ bs bs₁ h₁ n hn)
  | assign x e =>
    intro bs bs' h n hn
    cases e with
    | var y =>
      simp only [chkSelf] at h
      by_cases hyx : y = x
      · rw [if_pos hyx] at h
        by_cases hxbs : x ∈ bs
        · rw [if_pos hxbs] at h
          injection h with h2
          subst h2
          exact hn
        · rw [if_neg hxbs] at h; cases h
      · rw [if_neg hyx] at h
        injection h with h2
        subst h2
        exact List.mem_cons_of_mem _ hn
    | lit v =>
      simp only [chkSelf] at h
      injection h with h2
      subst h2
      exact List.mem_cons_of_mem _ hn
    | attr xa aa =>
      simp only [chkSelf] at h
      injection h with h2
      subst h2
      exact List.mem_cons_of_mem _ hn
    | pair e₁ e₂ =>
      simp only [chkSelf] at h
      injection h with h2
      subst h2
      exact List.mem_cons_of_mem _ hn
  | attrAssign x a e =>
    intro bs bs' h n hn
    simp only [chkSelf] at h
    injection h with h2
    subst h2
    exact hn
  | ifElse c s₁ s₂ ih₁ ih₂ =>
    intro bs bs' h n hn
    simp only [chkSelf] at h
    cases h₁ : chkSelf s₁ bs with
    | none => rw [h₁] at h; cases h
    | some bs₁ =>
      cases h₂ : chkSelf s₂ bs with
      | none => rw [h₁, h₂] at h; cases h
      | some bs₂ =>
        rw [h₁, h₂] at h
        injection h with h2
        subst h2
        exact hn
  | printE e =>
    intro bs bs' h n hn
    simp only [chkSelf] at h
    injection h with h2
    subst h2
    exact hn

/-- A non-dropped assignment binds its target and keeps every definitely-bound
name bound. -/
theorem assign_preserve (x : String) (e : SExpr) (st : PState) (bs : List String)
    (hb : ∀ n ∈ bs, (alistGet st.env n).isSome = true) :
    ∀ st', execS (PStmt.assign x e) st = some st' →
      ∀ n ∈ x :: bs, (alistGet st'.env n).isSome = true := by
  intro st' hs n hn
  simp only [execS] at hs
  cases hv : evalE st e with
  | none => rw [hv] at hs; cases hs
  | some v =>
    rw [hv] at hs
    injection hs with h3
    subst h3
    show (alistGet (alistSet st.env x v) n).isSome = true
    rw [alistGet_set]
    by_cases hxn : x = n
    · simp [hxn]
    · rw [if_neg hxn]
      rcases List.mem_cons.mp hn with h | h
      · exact absurd h.symm hxn
      · exact hb n h

/-- Dropping the well-formed self-assignments of a program neither changes its
behaviour (final state, heap and printed output included) nor loses any
definitely-bound name. -/
theorem execS_dropSelfAssign : ∀ (s : PStmt) (bs bs' : List String) (st : PState),
    chkSelf s bs = some bs' →
    (∀ n ∈ bs, (alistGet st.env n).isSome = true) →
    execS (dropSelfAssign s) st = execS s st ∧
    (∀ st', execS s st = some st' → ∀ n ∈ bs', (alistGet st'.env n).isSome = true) := by
  intro s
  induction s with
  | skip =>
    intro bs bs' st h hb
    simp only [chkSelf] at h
    injection h with h2
    subst h2
    refine ⟨rfl, fun st' hs n hn => ?_⟩
    simp only [execS] at hs
    injection hs with h3
    subst h3
    exact hb n hn
  | seq s₁ s₂ ih₁ ih₂ =>
    intro bs bs' st h hb
    simp only [chkSelf] at h
    cases h₁ : chkSelf s₁ bs with
    | none => rw [h₁] at h; cases h
    | some bs₁ =>
      rw [h₁] at h
      obtain ⟨he₁, hp₁⟩ := ih₁ bs bs₁ st h₁ hb
      constructor
      · show execS (PStmt.seq (dropSelfAssign s₁) (dropSelfAssign s₂)) st
          = execS (PStmt.seq s₁ s₂) st
        simp only [execS]
        rw [he₁]
        cases h₂ : execS s₁ st with
        | none => rfl
        | some st₁ => exact (ih₂ bs₁ bs' st₁ h (hp₁ st₁ h₂)).1
      · intro st' hs n hn
        simp only [execS] at hs
        cases h₂ : execS s₁ st with
        | none => rw [h₂] at hs; cases hs
        | some st₁ =>
          rw [h₂] at hs
          exact (ih₂ bs₁ bs' st₁ h (hp₁ st₁ h₂)).2 st' hs n hn
  | assign x e =>
    intro bs bs' st h hb
    cases e with
    | var y =>
      simp only [chkSelf] at h
      by_cases hyx : y = x
      · subst hyx
        rw [if_pos rfl] at h
        by_cases hxbs : y ∈ bs
        · rw [if_pos hxbs] at h
          injection h with h2
          subst h2
          obtain ⟨v, hv⟩ := Option.isSome_iff_exists.mp (hb y hxbs)
          constructor
          · show execS (if y = y then PStmt.skip else PStmt.assign y (SExpr.var y)) st
              = execS (PStmt.assign y (SExpr.var y)) st
            rw [if_pos rfl]
            simp only [execS, evalE, hv]
            rw [alistSet_self st.env y v hv]
          · intro st' hs n hn
            simp only [execS, evalE, hv] at hs
            injection hs with h3
            subst h3
            show (alistGet (alistSet st.env y v) n).isSome = true
            rw [alistSet_self st.env y v hv]
            exact hb n hn
        · rw [if_neg hxbs] at h; cases h
      · rw [if_neg hyx] at h
        injection h with h2
        subst h2
        constructor
        · show execS (if y = x then PStmt.skip else PStmt.assign x (SExpr.var y)) st
            = execS (PStmt.assign x (SExpr.var y)) st
          rw [if_neg hyx]
        · exact assign_preserve x (SExpr.var y) st bs hb
    | lit v =>
      simp only [chkSelf] at h
      injection h with h2
      subst h2
      exact ⟨rfl, assign_preserve x (SExpr.lit v) st bs hb⟩
    | attr xa aa =>
      simp only [chkSelf] at h
      injection h with h2
      subst h2
      exact ⟨rfl, assign_preserve x (SExpr.attr xa aa) st bs hb⟩
    | pair e₁ e₂ =>
      simp only [chkSelf] at h
      injection h with h2
      subst h2
      exact ⟨rfl, assign_preserve x (SExpr.pair e₁ e₂) st bs hb⟩
  | attrAssign x a e =>
    intro bs bs' st h hb
    simp only [chkSelf] at h
    injection h with h2
    subst h2
    refine ⟨rfl, fun st' hs n hn => ?_⟩
    simp only [execS] at hs
    cases hg : alistGet st.env x with
    | none => simp only [hg] at hs; cases hs
    | some v₀ =>
      simp only [hg] at hs
      cases v₀ with
      | ref r =>
        cases hv : evalE st e with
        | none => simp only [hv] at hs; cases hs
        | some v =>
          simp only [hv] at hs
          cases hh : heapGet st.heap r with
          | none => simp only [hh] at hs; cases hs
          | some attrs =>
            simp only [hh] at hs
            injection hs with h3
            subst h3
            exact hb n hn
      | int m => cases hs
      | str s0 => cases hs
      | bool b => cases hs
      | pynone => cases hs
      | vpair v₁ v₂ => cases hs
  | ifElse c s₁ s₂ ih₁ ih₂ =>
    intro bs bs' st h hb
    simp only [chkSelf] at h
    cases h₁ : chkSelf s₁ bs with
    | none => rw [h₁] at h; cases h
    | some bs₁ =>
      cases h₂ : chkSelf s₂ bs with
      | none => rw [h₁, h₂] at h; cases h
      | some bs₂ =>
        rw [h₁, h₂] at h
        injection h with h2
        subst h2
        constructor
        · show execS (PStmt.ifElse c (dropSelfAssign s₁) (dropSelfAssign s₂)) st
            = execS (PStmt.ifElse c s₁ s₂) st
          simp only [execS]
          cases hc : evalE st c with
          | none => rfl
          | some v =>
            cases v with
            | bool b =>
              cases b
              · exact (ih₂ bs bs₂ st h₂ hb).1
              · exact (ih₁ bs bs₁ st h₁ hb).1
            | int m => rfl
            | str s0 => rfl
            | pynone => rfl
            | ref r => rfl
            | vpair v₁ v₂ => rfl
        · intro st' hs n hn
          simp only [execS] at hs
          cases hc : evalE st c with
          | none => rw [hc] at hs; cases hs
          | some v =>
            rw [hc] at hs
            cases v with
            | bool b =>
              cases b
              · exact (ih₂ bs bs₂ st h₂ hb).2 st' hs n (chkSelf_subset s₂ bs bs₂ h₂ n hn)
              · exact (ih₁ bs bs₁ st h₁ hb).2 st' hs n (chkSelf_subset s₁ bs bs₁ h₁ n hn)
            | int m => cases hs
            | str s0 => cases hs
            | pynone => cases hs
            | ref r => cases hs
            | vpair v₁ v₂ => cases hs
  | printE e =>
    intro bs bs' st h hb
    simp only [chkSelf] at h
    injection h with h2
    subst h2
    refine ⟨rfl, fun st' hs n hn => ?_⟩
    simp only [execS] at hs
    cases hv : evalE st e with
    | none => rw [hv] at hs; cases hs
    | some v =>
      rw [hv] at hs
      injection hs with h3
      subst h3
      exact hb n hn


/-- C1: for any wrapped module, over any sequence of imports its top-level
body executes at most once, and every import that yields a namespace yields
the same one; on the pyfail_function_scoped_wrapper_init fixture, repeated
calls of test_function (each importing pkg.submodule) run the initializers of
pkg.submodule and pkg exactly once — on the first call — leave the registry
untouched afterwards, and return the same namespace object every time. -/
theorem wrapped_module_import_once :
    (∀ (deps : String → List String) (fuel : Nat) (trace : List String)
        (m : String),
      (runTrace deps fuel emptyRegistry trace).execCount m ≤ 1) ∧
    (∀ (deps : String → List String) (fuel : Nat) (trace : List String)
        (m : String) (n₁ n₂ : Nat),
      (m, some n₁) ∈ traceResults deps fuel emptyRegistry trace →
      (m, some n₂) ∈ traceResults deps fuel emptyRegistry trace → n₁ = n₂) ∧
    (∀ n : Nat,
      runTrace pyfailDeps 5 emptyRegistry
          (List.replicate (n + 1) "pkg.submodule")
        = runTrace pyfailDeps 5 emptyRegistry ["pkg.submodule"]) ∧
    (runTrace pyfailDeps 5 emptyRegistry ["pkg.submodule"]).execCount
        "pkg.submodule" = 1 ∧
    (runTrace pyfailDeps 5 emptyRegistry ["pkg.submodule"]).execCount "pkg" = 1 ∧
    (initModule pyfailDeps 5 emptyRegistry "pkg.submodule").2 = some 0 ∧
    (initModule pyfailDeps 5
        (runTrace pyfailDeps 5 emptyRegistry ["pkg.submodule"]) "pkg.submodule").2
      = some 0 := by
  have hInv : RegInv emptyRegistry := fun m => ⟨fun _ => rfl, Nat.zero_le 1⟩
  have hNs : NsInv emptyRegistry := fun m _ => rfl
  refine ⟨?_, ?_, ?_, by decide, by decide, by decide, by decide⟩
  · intro deps fuel trace m
    exact (foldl_pres_registry RegInv _
      (fun a d ha => initModule_inv deps fuel a d ha) trace emptyRegistry hInv m).2
  · intro deps fuel trace m n₁ n₂ h₁ h₂
    have e₁ := traceResults_final deps fuel trace emptyRegistry hNs m n₁ h₁
    have e₂ := traceResults_final deps fuel trace emptyRegistry hNs m n₂ h₂
    exact Option.some.inj (e₁.symm.trans e₂)
  · intro n
    show runTrace pyfailDeps 5
        (initModule pyfailDeps 5 emptyRegistry "pkg.submodule").1
        (List.replicate n "pkg.submodule") = _
    exact runTrace_replicate_finished pyfailDeps 5 "pkg.submodule" n _ (by decide)

/-- Witness for `wrapped_module_import_once`: on the fixture's trace of two
calls, both imports of pkg.submodule return namespace 0, and the uniqueness
part applied to that trace confirms the two returned namespaces coincide. -/
theorem wrapped_module_import_once_witness :
    ("pkg.submodule", some 0) ∈
      traceResults pyfailDeps 5 emptyRegistry ["pkg.submodule", "pkg.submodule"] ∧
    (0 : Nat) = 0 := by
  constructor
  · decide
  · exact wrapped_module_import_once.2.1 pyfailDeps 5
      ["pkg.submodule", "pkg.submodule"] "pkg.submodule" 0 0 (by decide) (by decide)

/-- C2: the bundle is a pure function of (files, source roots, imports), so two
runs on identical inputs produce byte-identical text; and any permutation of
the source roots under which every import still resolves to the same file
leaves the bundle text byte-identical. -/
theorem bundle_determinism :
    (∀ (fs₁ fs₂ roots₁ roots₂ : List String) (imports₁ imports₂ : List (List String)),
      fs₁ = fs₂ → roots₁ = roots₂ → imports₁ = imports₂ →
      bundleText fs₁ roots₁ imports₁ = bundleText fs₂ roots₂ imports₂) ∧
    (∀ (fs roots roots' : List String) (imports : List (List String)),
      roots'.Perm roots →
      (∀ i ∈ imports, resolveImport fs roots' i = resolveImport fs roots i) →
      bundleText fs roots' imports = bundleText fs roots imports) := by
  constructor
  · intro fs1 fs2 r1 r2 i1 i2 h1 h2 h3
    subst h1; subst h2; subst h3; rfl
  · intro fs roots roots' imports _ h
    unfold bundleText
    congr 1
    exact List.map_congr_left (fun i hi => by rw [h i hi])

/-- Witness for `bundle_determinism`: two roots, each owning one import, are
permuted; every import resolves identically, and the bundle text is equal. -/
theorem bundle_determinism_witness :
    (["rb", "ra"].Perm ["ra", "rb"]) ∧
    bundleText ["ra/m.py", "rb/n/__init__.py"] ["rb", "ra"] [["m"], ["n"]]
      = bundleText ["ra/m.py", "rb/n/__init__.py"] ["ra", "rb"] [["m"], ["n"]] := by
  refine ⟨by decide, bundle_determinism.2 _ _ _ _ (by decide) ?_⟩
  decide

/-- C4: every import of every module that is not first-party — stdlib,
third-party and native-extension alike — appears verbatim (alias and
from-names included) in the bundle header; inlined and wrapped modules are
always first-party, so a stdlib or native module is never inlined or wrapped;
on the stdlib fixtures, `import os as py_os` of file_utils.py and
`import logging` of the wrapped wrapper_module.py land in the header with
`logging` neither inlined nor wrapped, and on the native demonstration the
aliased `import _cffi_backend as backend` lands in the header with
`_cffi_backend` neither inlined nor wrapped. -/
theorem stdlib_imports_preserved :
    (∀ (cls : String → ImportKind) (mods : List PyModule),
      ∀ m ∈ mods, ∀ i ∈ m.imports, cls i.top ≠ ImportKind.firstparty →
        i ∈ bundleHeader cls mods) ∧
    (∀ (cls : String → ImportKind) (mods : List PyModule) (cyclic : List String),
      (∀ n ∈ inlinedNames cls mods cyclic, cls n = ImportKind.firstparty) ∧
      (∀ n ∈ wrappedNames cls mods cyclic, cls n = ImportKind.firstparty)) ∧
    osAliasImport ∈ bundleHeader fixtureClassify stdlibFixtureModules ∧
    loggingImport ∈ bundleHeader fixtureClassify stdlibFixtureModules ∧
    "logging" ∉ inlinedNames fixtureClassify stdlibFixtureModules [] ∧
    "logging" ∉ wrappedNames fixtureClassify stdlibFixtureModules [] ∧
    "wrapper_module" ∈ wrappedNames fixtureClassify stdlibFixtureModules [] ∧
    cffiImport ∈ bundleHeader nativeDemoClassify nativeDemoModules ∧
    "_cffi_backend" ∉ inlinedNames nativeDemoClassify nativeDemoModules [] ∧
    "_cffi_backend" ∉ wrappedNames nativeDemoClassify nativeDemoModules [] := by
  refine ⟨?_, ?_, by decide, by decide, by decide, by decide, by decide,
    by decide, by decide, by decide⟩
  · intro cls mods m hm i hi hcls
    cases hk : cls i.top with
    | firstparty => exact absurd hk hcls
    | stdlib =>
      refine List.mem_append_left _
        (List.mem_dedup.mpr (List.mem_flatMap.mpr ⟨m, hm, ?_⟩))
      exact List.mem_filter.mpr ⟨hi, by simp [hk]⟩
    | thirdparty =>
      refine List.mem_append_right _
        (List.mem_dedup.mpr (List.mem_flatMap.mpr ⟨m, hm, ?_⟩))
      exact List.mem_filter.mpr ⟨hi, by simp [hk]⟩
    | native =>
      refine List.mem_append_right _
        (List.mem_dedup.mpr (List.mem_flatMap.mpr ⟨m, hm, ?_⟩))
      exact List.mem_filter.mpr ⟨hi, by simp [hk]⟩
  · intro cls mods cyclic
    constructor
    · intro n hn
      obtain ⟨m, hm, rfl⟩ := List.mem_map.mp hn
      have h1 := (List.mem_filter.mp hm).1
      have h2 := (List.mem_filter.mp h1).2
      simpa using h2
    · intro n hn
      obtain ⟨m, hm, rfl⟩ := List.mem_map.mp hn
      have h1 := (List.mem_filter.mp hm).1
      have h2 := (List.mem_filter.mp h1).2
      simpa using h2

/-- Witness for `stdlib_imports_preserved`: the general header-membership part
applied to the `import logging` of the wrapped wrapper_module.py and to the
native `import _cffi_backend as backend` of the demonstration module, and the
first-party-only part applied to the one wrapped fixture module. -/
theorem stdlib_imports_preserved_witness :
    loggingImport ∈ bundleHeader fixtureClassify stdlibFixtureModules ∧
    cffiImport ∈ bundleHeader nativeDemoClassify nativeDemoModules ∧
    fixtureClassify "wrapper_module" = ImportKind.firstparty := by
  refine ⟨?_, ?_, ?_⟩
  · exact stdlib_imports_preserved.1 fixtureClassify stdlibFixtureModules
      wrapper_module_record (by decide) loggingImport (by decide) (by decide)
  · exact stdlib_imports_preserved.1 nativeDemoClassify nativeDemoModules
      nativeDemoMain (by decide) cffiImport (by decide) (by decide)
  · exact (stdlib_imports_preserved.2.1 fixtureClassify stdlibFixtureModules []).2
      "wrapper_module" (by decide)

/-- C5: deleting every `x = x` assignment whose variable is definitely bound
at that point (the situation of every self-assignment in the
no_ops_multimodule_self_refs fixtures), while retaining attribute
self-assignments such as `self.level = self.level`, is observationally
equivalent: execution from any state satisfying the bound-names condition
yields the identical final state, output stream included.  The concrete
conjuncts instantiate this on the embedded module body of utils/constants.py
and on the embedded self-reference part of `Logger.__init__` from
utils/helpers.py. -/
theorem self_assignment_elimination :
    (∀ (s : PStmt) (bs bs' : List String) (st : PState),
      chkSelf s bs = some bs' →
      (∀ n ∈ bs, (alistGet st.env n).isSome = true) →
      execS (dropSelfAssign s) st = execS s st) ∧
    (∀ (x a : String),
      dropSelfAssign (PStmt.attrAssign x a (SExpr.attr x a))
        = PStmt.attrAssign x a (SExpr.attr x a)) ∧
    execS (dropSelfAssign constantsFragment) ⟨[], [], []⟩
      = execS constantsFragment ⟨[], [], []⟩ ∧
    dropSelfAssign loggerInitFragment
      = PStmt.seq PStmt.skip
          (PStmt.attrAssign "self" "level" (SExpr.attr "self" "level")) ∧
    execS (dropSelfAssign loggerInitFragment) loggerInitState
      = execS loggerInitFragment loggerInitState := by
  exact ⟨fun s bs bs' st h hb => (execS_dropSelfAssign s bs bs' st h hb).1,
    fun x a => rfl, rfl, rfl, rfl⟩

/-- Witness for `self_assignment_elimination`: the general equivalence applied
to the embedded constants.py body, whose self-assignments all pass the
definitely-bound check starting from the empty environment. -/
theorem self_assignment_elimination_witness :
    chkSelf constantsFragment []
      = some ["LIMITS", "CONFIG_LIST", "DEFAULT_NAME", "MIN_VALUE", "MAX_VALUE"] ∧
    execS (dropSelfAssign constantsFragment) ⟨[], [], []⟩
      = execS constantsFragment ⟨[], [], []⟩ := by
  constructor
  · rfl
  · exact self_assignment_elimination.1 constantsFragment []
      ["LIMITS", "CONFIG_LIST", "DEFAULT_NAME", "MIN_VALUE", "MAX_VALUE"]
      ⟨[], [], []⟩ rfl (by simp)

/-- C6: on the locals_globals_shadowing fixture, the rewrite pass rewrites
exactly the two pre-shadow bare `locals()`/`globals()` calls into
module-namespace assignments and leaves the two post-shadow calls unrewritten;
running the rewritten body then resolves the post-shadow calls to the
user-defined functions, giving result_locals = dict [custom: result] and
result_globals = dict [another: custom, result: true]. -/
theorem locals_globals_shadowing_guard :
    rewriteLG lgFixtureBody false false =
      [LGStmtR.defFun "some_custom_function"
         (PyVal.dict [("custom", PyVal.str "result")]),
       LGStmtR.defFun "another_custom_function"
         (PyVal.dict [("another", PyVal.str "custom"), ("result", PyVal.bool true)]),
       LGStmtR.assignModuleNs "builtin_locals_result",
       LGStmtR.assignModuleNs "builtin_globals_result",
       LGStmtR.assignName "locals" "some_custom_function",
       LGStmtR.assignCall "result_locals" "locals",
       LGStmtR.assignName "globals" "another_custom_function",
       LGStmtR.assignCall "result_globals" "globals"] ∧
    (evalLG (rewriteLG lgFixtureBody false false) []).bind
        (fun env => envLookup env "result_locals")
      = some (PyVal.dict [("custom", PyVal.str "result")]) ∧
    (evalLG (rewriteLG lgFixtureBody false false) []).bind
        (fun env => envLookup env "result_globals")
      = some (PyVal.dict [("another", PyVal.str "custom"),
          ("result", PyVal.bool true)]) := by
  exact ⟨rfl, rfl, rfl⟩

/-- C7: the analyzer's export set is the `__all__` literal verbatim when one is
given (even when it lists a dunder such as `__version__`); otherwise it is
exactly the top-level names that do not begin with an underscore, so
`__version__` is excluded by default and exported only when listed in
`__all__` — as exercised by the two synthetic modules of
src/test_dunder_export.py. -/
theorem semantic_analyzer_export_set :
    (∀ (l names : List String), moduleExports (some l) names = l) ∧
    (∀ (names : List String) (n : String),
      n ∈ moduleExports none names ↔ n ∈ names ∧ startsWithUnderscore n = false) ∧
    moduleExports (some test_module2_all) test_module2_names
      = ["public_var", "__version__"] ∧
    moduleExports none test_module_names = ["public_var"] ∧
    "__version__" ∉ moduleExports none test_module_names := by
  refine ⟨fun l names => rfl, fun names n => ?_, by decide, by decide, by decide⟩
  simp [moduleExports, List.mem_filter, Bool.not_eq_true']

/-- C9: the command line built by `run_cribo` with default keyword arguments
(emit_requirements = true, tree_shake = false, verbose = false) contains
`--entry`, `--output`, `--emit-requirements` and `--no-tree-shake`; and for
any arguments whose path strings are not themselves the literal flag,
`--no-tree-shake` is omitted exactly when tree_shake is passed as true. -/
theorem run_cribo_flags :
    (∀ c e o : String,
      "--entry" ∈ run_cribo_cmd c e o true false false ∧
      "--output" ∈ run_cribo_cmd c e o true false false ∧
      "--emit-requirements" ∈ run_cribo_cmd c e o true false false ∧
      "--no-tree-shake" ∈ run_cribo_cmd c e o true false false) ∧
    (∀ (c e o : String) (er ts v : Bool),
      c ≠ "--no-tree-shake" → e ≠ "--no-tree-shake" → o ≠ "--no-tree-shake" →
      ("--no-tree-shake" ∉ run_cribo_cmd c e o er ts v ↔ ts = true)) := by
  constructor
  · intro c e o
    refine ⟨?_, ?_, ?_, ?_⟩ <;> simp [run_cribo_cmd]
  · intro c e o er ts v hc he ho
    cases ts <;> cases er <;> cases v <;>
      simp [run_cribo_cmd, Ne.symm hc, Ne.symm he, Ne.symm ho]

/-- Witness for `run_cribo_flags` at concrete arguments. -/
theorem run_cribo_flags_witness :
    ("--no-tree-shake" ∉ run_cribo_cmd "cribo" "main.py" "bundle.py" true true false) ∧
    ("--entry" ∈ run_cribo_cmd "cribo" "main.py" "bundle.py" true false false) ∧
    ("--no-tree-shake" ∈ run_cribo_cmd "cribo" "main.py" "bundle.py" true false false) := by
  refine ⟨?_, ?_, ?_⟩
  · exact (run_cribo_flags.2 "cribo" "main.py" "bundle.py" true true false
      (by decide) (by decide) (by decide)).mpr rfl
  · exact (run_cribo_flags.1 "cribo" "main.py" "bundle.py").1
  · exact (run_cribo_flags.1 "cribo" "main.py" "bundle.py").2.2.2

/-- C3 counterexample: the claim asserts that `Phrase` remains in the bundle
"transitively through the body of Person", but in speaking.py the body of
`Person` references no name `Phrase` (its references are `Sex`, `PersonTitle`,
`create_ms`, `create_mr`), and `Phrase` is not reachable from the entry
module's used names, so tree-shaking under the spec's reachability rules
(§4.4) drops it. -/
theorem treeshaking_phrase_dropped :
    "Phrase" ∉ refsOf speakingRefs "Person" ∧
    "Phrase" ∉ reachableNames speakingRefs treeshakeEntryRoots := by
  decide

/-- C3 amended: in the simple_treeshaking_inlining fixture, every name
reachable from the entry module remains — `ALICE_NAME`, `create_ms`, `say`,
`Person`, `Sex` directly, plus `PersonTitle` and `create_mr` transitively
through the body of `Person` — while the unreachable names `Pet`, `BOB_NAME`,
`scream`, and also `Phrase` (referenced by nothing), are dropped. -/
theorem treeshaking_fixture_reachability :
    ("ALICE_NAME" ∈ reachableNames speakingRefs treeshakeEntryRoots ∧
     "create_ms" ∈ reachableNames speakingRefs treeshakeEntryRoots ∧
     "say" ∈ reachableNames speakingRefs treeshakeEntryRoots ∧
     "Person" ∈ reachableNames speakingRefs treeshakeEntryRoots ∧
     "Sex" ∈ reachableNames speakingRefs treeshakeEntryRoots) ∧
    ("PersonTitle" ∈ reachableNames speakingRefs treeshakeEntryRoots ∧
     "create_mr" ∈ reachableNames speakingRefs treeshakeEntryRoots) ∧
    ("Pet" ∉ reachableNames speakingRefs treeshakeEntryRoots ∧
     "BOB_NAME" ∉ reachableNames speakingRefs treeshakeEntryRoots ∧
     "scream" ∉ reachableNames speakingRefs treeshakeEntryRoots ∧
     "Phrase" ∉ reachableNames speakingRefs treeshakeEntryRoots) := by
  decide

/-- C8: the requirements file holds exactly one line per distinct third-party
(or native) top-level package referenced — sorted, without duplicates, with
stdlib and first-party imports excluded — and no file is produced exactly when
no third-party package is referenced; in particular the pure-Python idna
bundle of src/ecosystem/scenarios/test_idna.py produces no file, while the
mixed demonstration input produces the sorted, de-duplicated pair. -/
theorem requirements_emission :
    (∀ (cls : String → ImportKind) (tops : List String),
      (requirementsPackages cls tops).Sorted (fun a b => strLe a b = true) ∧
      (requirementsPackages cls tops).Nodup ∧
      (∀ p, p ∈ requirementsPackages cls tops ↔
        p ∈ tops ∧ isExternalDep (cls p) = true) ∧
      (requirementsFile cls tops = none ↔
        ∀ p ∈ tops, isExternalDep (cls p) = false)) ∧
    requirementsFile idnaClassify idnaImportTops = none ∧
    requirementsFile demoClassify demoTops = some ["requests", "yaml"] := by
  have hmem : ∀ (cls : String → ImportKind) (tops : List String) (p : String),
      p ∈ requirementsPackages cls tops ↔ p ∈ tops ∧ isExternalDep (cls p) = true := by
    intro cls tops p
    rw [requirementsPackages, (List.perm_insertionSort _ _).mem_iff,
      List.mem_dedup, List.mem_filter]
  refine ⟨fun cls tops => ⟨?_, ?_, hmem cls tops, ?_⟩, by decide, by decide⟩
  · exact List.sorted_insertionSort _ _
  · exact (List.perm_insertionSort _ _).nodup_iff.mpr (List.nodup_dedup _)
  · simp only [requirementsFile]
    constructor
    · intro h p hp
      cases hext : isExternalDep (cls p) with
      | false => rfl
      | true =>
        exfalso
        have hpm : p ∈ requirementsPackages cls tops := (hmem cls tops p).mpr ⟨hp, hext⟩
        by_cases hE : (requirementsPackages cls tops).isEmpty = true
        · rw [List.isEmpty_iff] at hE
          rw [hE] at hpm
          simp at hpm
        · simp [hE] at h
    · intro h
      have hE : requirementsPackages cls tops = [] := by
        rw [List.eq_nil_iff_forall_not_mem]
        intro p hpmem
        have hpc := (hmem cls tops p).mp hpmem
        have hf := h p hpc.1
        simp [hpc.2] at hf
      simp [hE]

/-- C10: importing test_httpx.py or test_pyyaml.py fails before any test runs:
their `from .utils import ...` statements request `parse_requirements_file`,
which src/ecosystem/scenarios/utils.py never defines, so the from-import
raises ImportError at exactly that name. -/
theorem ecosystem_import_error :
    fromImportFirstMissing utils_module_names test_httpx_requested
      = some "parse_requirements_file" ∧
    fromImportFirstMissing utils_module_names test_pyyaml_requested
      = some "parse_requirements_file" ∧
    "parse_requirements_file" ∉ utils_module_names := by
  decide

end Cribo
